import Mathlib

/-!
Shallow embedding of the core of the `ujutils` repository
(`ujutils/common.py`, `ujutils/directory.py`, `ujutils/misc.py`).

Python strings are modelled as Lean `String` (a wrapper around `List Char`
in this toolchain); the character-level helpers below reimplement, over
`List Char`, exactly the Python `str` operations the source uses
(`str.replace`, `str.split`, `str.strip`, `str.rsplit`, `str.lower`,
`os.path.dirname`, `os.path.splitext`).  All inputs in this code base are
ASCII, where `Char.toLower` agrees with Python `str.lower`.
-/

namespace Ujutils

/-! ## Python string primitives (over `List Char`) -/

/-- Python `str.lower`, characterwise (ASCII). -/
def pyLowerList (cs : List Char) : List Char :=
  cs.map Char.toLower

/-- Python `str.strip(chars)`: drop the characters of `chars` from both ends. -/
def pyStrip (chars : List Char) (s : List Char) : List Char :=
  ((s.dropWhile (fun c => chars.contains c)).reverse.dropWhile
    (fun c => chars.contains c)).reverse

/-- Whether `pat` is a prefix of `s` (helper for `pyReplace`/`pySplit`). -/
def startsWithL : List Char → List Char → Bool
  | [], _ => true
  | _ :: _, [] => false
  | a :: as, b :: bs => a == b && startsWithL as bs

/-- Helper for `pyReplace`: replace every leftmost, non-overlapping occurrence
of the non-empty pattern `p :: ps` in the scanned list by `rep`.  The `Nat`
argument is fuel, kept at least the length of the scanned list so that the
recursion is structural (kernel-reducible) yet never cuts the scan short. -/
def pyReplaceAux (p : Char) (ps rep : List Char) : Nat → List Char → List Char
  | _, [] => []
  | 0, s => s
  | fuel + 1, c :: rest =>
    if startsWithL (p :: ps) (c :: rest) then
      rep ++ pyReplaceAux p ps rep fuel (rest.drop ps.length)
    else
      c :: pyReplaceAux p ps rep fuel rest

/-- Python `s.replace(pat, rep)` for a non-empty pattern: leftmost,
non-overlapping, replace-all.  (The source never calls `replace` with an
empty pattern; for `pat = []` we return `s` unchanged.) -/
def pyReplace (s pat rep : List Char) : List Char :=
  match pat with
  | [] => s
  | p :: ps => pyReplaceAux p ps rep s.length s

/-- Helper for `pySplit`: split the scanned list at every leftmost,
non-overlapping occurrence of the non-empty separator `p :: ps`;
`cur` holds the (reversed) characters of the current field.  The `Nat`
argument is fuel, kept at least the length of the scanned list. -/
def pySplitAux (p : Char) (ps : List Char) : Nat → List Char → List Char → List (List Char)
  | _, [], cur => [cur.reverse]
  | 0, s, cur => [cur.reverse ++ s]
  | fuel + 1, c :: rest, cur =>
    if startsWithL (p :: ps) (c :: rest) then
      cur.reverse :: pySplitAux p ps fuel (rest.drop ps.length) []
    else
      pySplitAux p ps fuel rest (c :: cur)

/-- Python `s.split(sep)` for a non-empty separator: no run-collapsing, and
`"".split(sep) = [""]`.  (Python raises on an empty separator; the source
only ever splits on `"/"`, `","` and the multi-label separator.) -/
def pySplit (sep : List Char) (s : List Char) : List (List Char) :=
  match sep with
  | [] => [s]
  | p :: ps => pySplitAux p ps s.length s []

/-- Python `x.rsplit(sep, 1)[0]` for `sep = '/'`: everything before the last
slash, or the whole string when there is no slash. -/
def rsplitDirPart (cs : List Char) : List Char :=
  if cs.contains '/' then ((cs.reverse.dropWhile (fun c => c ≠ '/')).drop 1).reverse
  else cs

/-- Python `x.rsplit(sep, 1)[-1]` for `sep = '/'`: everything after the last
slash, or the whole string when there is no slash. -/
def rsplitNamePart (cs : List Char) : List Char :=
  if cs.contains '/' then (cs.reverse.takeWhile (fun c => c ≠ '/')).reverse
  else cs

/-- Python `x.rsplit('.', 1)[-1]`: the part after the last dot, or the whole
string when there is no dot (used by `misc._filter_files`). -/
def afterLastDot (cs : List Char) : List Char :=
  if cs.contains '.' then (cs.reverse.takeWhile (fun c => c ≠ '.')).reverse
  else cs

/-- `os.path.dirname` (POSIX): `p[:p.rfind('/') + 1]`, right-stripped of
slashes unless it consists only of slashes; `""` when there is no slash. -/
def pyDirname (cs : List Char) : List Char :=
  if cs.contains '/' then
    let head := (cs.reverse.dropWhile (fun c => c ≠ '/')).reverse
    if head.all (fun c => c = '/') then head
    else (head.reverse.dropWhile (fun c => c = '/')).reverse
  else []

/-- The extension part of `os.path.splitext(path)[-1][1:]`: the characters of
the basename after its last dot, provided some non-dot character precedes
that dot inside the basename (so `".bashrc"` has no extension). -/
def splitextExt (cs : List Char) : List Char :=
  let base := if cs.contains '/' then (cs.reverse.takeWhile (fun c => c ≠ '/')).reverse
              else cs
  if base.contains '.' then
    let ext := (base.reverse.takeWhile (fun c => c ≠ '.')).reverse
    let stem := base.take (base.length - ext.length - 1)
    if stem.any (fun c => c ≠ '.') then ext else []
  else []

/-- `misc._get_ext`: `os.path.splitext(x)[-1][1:].lower()`. -/
def _get_ext (path : String) : String :=
  String.mk (pyLowerList (splitextExt path.data))

/-! ## natsort model

`natsort.natsorted(x, key=k)` sorts by the natural-sort key of `k(_)`:
the string is cut into maximal runs of digits / non-digits; digit runs
compare as numbers, other runs as plain strings; a string starting with a
digit gets an empty leading text chunk, so chunks at equal positions of two
keys always have the same kind. -/

/-- One chunk of a natural-sort key: a run of non-digits or the value of a
run of digits. -/
inductive Chunk where
  | str (s : List Char)
  | num (n : Nat)
deriving DecidableEq, Repr

/-- Fold one character into the (reversed) chunk list under construction. -/
def pushChar (acc : List Chunk) (c : Char) : List Chunk :=
  if c.isDigit then
    match acc with
    | Chunk.num n :: tl => Chunk.num (n * 10 + (c.toNat - 48)) :: tl
    | _ => Chunk.num (c.toNat - 48) :: acc
  else
    match acc with
    | Chunk.str s :: tl => Chunk.str (s ++ [c]) :: tl
    | _ => Chunk.str [c] :: acc

/-- Cut a string into maximal digit / non-digit runs. -/
def chunkRuns (cs : List Char) : List Chunk :=
  (cs.foldl pushChar []).reverse

/-- The natural-sort key of a string: its runs, with an empty leading text
chunk when the string starts with a digit (and `('',)` for the empty
string), as `natsort` produces. -/
def natKey (cs : List Char) : List Chunk :=
  match cs with
  | [] => [Chunk.str []]
  | c :: _ => if c.isDigit then Chunk.str [] :: chunkRuns cs else chunkRuns cs

/-- Three-way comparison of naturals. -/
def cmpNat (a b : Nat) : Ordering :=
  if a < b then Ordering.lt else if b < a then Ordering.gt else Ordering.eq

/-- Lexicographic comparison of character lists by code point
(Python `str` comparison). -/
def cmpCharList : List Char → List Char → Ordering
  | [], [] => Ordering.eq
  | [], _ :: _ => Ordering.lt
  | _ :: _, [] => Ordering.gt
  | a :: as, b :: bs =>
    match cmpNat a.toNat b.toNat with
    | Ordering.eq => cmpCharList as bs
    | o => o

/-- Comparison of two key chunks.  Between natsort keys, chunks at the same
position always have the same kind; the mixed cases are fixed arbitrarily
to make the comparison total. -/
def cmpChunk : Chunk → Chunk → Ordering
  | Chunk.str a, Chunk.str b => cmpCharList a b
  | Chunk.num a, Chunk.num b => cmpNat a b
  | Chunk.str _, Chunk.num _ => Ordering.lt
  | Chunk.num _, Chunk.str _ => Ordering.gt

/-- Lexicographic comparison of two chunk lists (Python tuple comparison). -/
def cmpChunks : List Chunk → List Chunk → Ordering
  | [], [] => Ordering.eq
  | [], _ :: _ => Ordering.lt
  | _ :: _, [] => Ordering.gt
  | a :: as, b :: bs =>
    match cmpChunk a b with
    | Ordering.eq => cmpChunks as bs
    | o => o

/-! ## `common.mlsorted` -/

/-- The default group table of `mlsorted` (`common.py`, lines 61-69). -/
def defaultOrder : List (List String) :=
  [["train"],
   ["val", "valid", "validation"],
   ["dev", "develop", "deveopment"],
   ["test"],
   ["eval", "evaluate", "evaluation"],
   ["ok", "neg", "nega", "negative"],
   ["ng", "pos", "posi", "positive"]]

/-- The `_order` map of `mlsorted` as an ordered list of
`(token, str(group index))` pairs.  Python builds a `dict` by successive
`update`s; with the distinct tokens of the tables used here, iterating the
dict in insertion order is exactly iterating this list. -/
def buildOrderMap (order : List (List String)) : List (List Char × List Char) :=
  order.enum.flatMap (fun p => p.2.map (fun e => (e.data, (toString p.1).data)))

/-- The `_translate` closure of `mlsorted`: lower-case, then apply every
`y.replace(k, v)` of the order map in insertion order. -/
def mlTranslate (m : List (List Char × List Char)) (x : String) : List Char :=
  m.foldl (fun y kv => pyReplace y kv.1 kv.2) (pyLowerList x.data)

/-- The sort key comparison used by `mlsorted`: natural-sort keys of the
translated strings. -/
def mlKeyLe (m : List (List Char × List Char)) (a b : String) : Prop :=
  cmpChunks (natKey (mlTranslate m a)) (natKey (mlTranslate m b)) ≠ Ordering.gt

instance (m : List (List Char × List Char)) : DecidableRel (mlKeyLe m) :=
  fun _ _ => inferInstanceAs (Decidable (_ ≠ _))

/-- `common.mlsorted`: `natsorted(x, key=lambda x: _translate(x))` — a stable
sort of `x` by the natural-sort key of the translated string. -/
def mlsorted (x : List String) (order : List (List String) := defaultOrder) :
    List String :=
  List.insertionSort (mlKeyLe (buildOrderMap order)) x

/-- `mlsorted` is a permutation of its input. -/
theorem mlsorted_perm (x : List String) (order : List (List String)) :
    List.Perm (mlsorted x order) x :=
  List.perm_insertionSort _ x

/-! ## `misc._linl` and `misc._filter_files` -/

/-- A Python argument that may be a single string or a list of strings. -/
abbrev StrOrList := Sum String (List String)

/-- Python `[x] if not isinstance(x, list) else x`. -/
def wrapList : StrOrList → List String
  | Sum.inl s => [s]
  | Sum.inr l => l

/-- `misc._linl`: `None` passes through; a list is returned unchanged (note:
without any stripping); a string is stripped of `sep`, split on `sep`, and
each piece is stripped of the characters of `strip` when given. -/
def _linl (x : Option StrOrList) (sep : String) (strip : Option String) :
    Option (List String) :=
  match x with
  | none => none
  | some (Sum.inr l) => some l
  | some (Sum.inl s) =>
    let pieces := pySplit sep.data (pyStrip sep.data s.data)
    match strip with
    | none => some (pieces.map String.mk)
    | some st => some (pieces.map (fun p => String.mk (pyStrip st.data p)))

/-- One path handed to `misc._filter_files`, together with the answer the
filesystem gives for `os.path.isfile(path)` (the only filesystem query the
function makes). -/
structure PyFile where
  path : String
  isfile : Bool
deriving DecidableEq, Repr

/-- The key `_filter_files` matches extension tokens against:
`x.rsplit('.', 1)[-1].lower()`. -/
def extKeyOf (f : PyFile) : String :=
  String.mk (pyLowerList (afterLastDot f.path.data))

/-- `misc._filter_files` (`misc.py`, lines 110-156): optional extension
filter (tokens stripped of dots, matched against the lower-cased suffix
after the last dot, files only), then optional subdirectory filter
(exact `os.path.dirname` equality). -/
def _filter_files (files : List PyFile) (extensions : Option StrOrList)
    (subdirs : Option StrOrList) : List PyFile :=
  if extensions = none ∧ subdirs = none then files
  else
    let files := match extensions with
      | none => files
      | some e =>
        let exts := (wrapList e).map (fun t => String.mk (pyStrip ['.'] t.data))
        files.filter (fun f => f.isfile && exts.contains (extKeyOf f))
    match subdirs with
    | none => files
    | some sd =>
      files.filter (fun f => (wrapList sd).contains (String.mk (pyDirname f.path.data)))

/-! ## `common.encode_labels` -/

/-- The Python error classes surfaced by the modelled code paths.
A bare `raise` statement with no active exception raises `RuntimeError`;
a missing dict key raises `KeyError`; `os.scandir` raises
`FileNotFoundError` for a missing path and `NotADirectoryError` for a
non-directory path; `pandas` raises `KeyError` for a missing column. -/
inductive PyError where
  | valueError
  | runtimeError
  | keyError
  | fileNotFoundError
  | notADirectoryError
deriving DecidableEq, Repr

deriving instance DecidableEq for Except

/-- The coded labels of `encode_labels`: a list of integer codes in
multi-class mode, one binary membership row per input in multi-label mode. -/
inductive Coded where
  | mc (codes : List Nat)
  | ml (rows : List (List Nat))
deriving DecidableEq, Repr

/-- The `(coded_labels, encoder, decoder)` triple returned by
`encode_labels`; the Python dicts are association lists with unique keys. -/
structure EncodeResult where
  coded : Coded
  encoder : List (String × Nat)
  decoder : List (Nat × String)
deriving DecidableEq, Repr

/-- Normalisation of the `problem` argument:
`problem.replace('-', '').replace('_', '').replace(' ', '').lower()`. -/
def normalizeProblem (p : String) : String :=
  String.mk (pyLowerList
    (pyReplace (pyReplace (pyReplace p.data "-".data "".data) "_".data "".data)
      " ".data "".data))

/-- The recognised multi-class spellings (`common.py`, line 309). -/
def MULTI_CLASS : List String := ["multiclass", "multiclasses", "mc"]

/-- The recognised multi-label spellings (`common.py`, line 310). -/
def MULTI_LABEL : List String := ["multilabel", "multilabels", "ml"]

/-- Python `set(...)`, modelled as one fixed enumeration of the distinct
elements (the set's iteration order is arbitrary; every property proved
below is independent of it). -/
def pySet (l : List String) : List String :=
  l.dedup

/-- The dict comprehension
`{_class: code for code, _class in enumerate(classes)}`, with `i` the code
of the first class. -/
def mkEncoder : List String → Nat → List (String × Nat)
  | [], _ => []
  | c :: cs, i => (c, i) :: mkEncoder cs (i + 1)

/-- The list comprehension `[encoder[x] for x in labels]`; `none` models the
`KeyError` a missing key would raise. -/
def pyMapLookup (enc : List (String × Nat)) : List String → Option (List Nat)
  | [] => some []
  | x :: xs =>
    match List.lookup x enc, pyMapLookup enc xs with
    | some c, some cs => some (c :: cs)
    | _, _ => none

/-- One multi-label row: starting from `[0] * n_classes`, set position
`encoder[lab]` to `1` for every token `lab`; `none` models a `KeyError`. -/
def mlCodeRow (enc : List (String × Nat)) : List String → List Nat → Option (List Nat)
  | [], labs => some labs
  | t :: ts, labs =>
    match List.lookup t enc with
    | some c => mlCodeRow enc ts (labs.set c 1)
    | none => none

/-- All multi-label rows, one per input label string. -/
def mlCodeRows (enc : List (String × Nat)) (n : Nat) (sep : String) :
    List String → Option (List (List Nat))
  | [] => some []
  | x :: xs =>
    match mlCodeRow enc ((pySplit sep.data x.data).map String.mk)
            (List.replicate n 0),
          mlCodeRows enc n sep xs with
    | some r, some rs => some (r :: rs)
    | _, _ => none

/-- `common.encode_labels` (`common.py`, lines 268-354), for list input and
`return_df=False`.  In multi-class mode the classes are
`mlsorted(set(labels))` sorted once more at line 326; in multi-label mode
they are the set of all separator-split tokens, sorted.  The final `else`
branch of the mode dispatch is a bare `raise`, which in Python (with no
active exception) raises `RuntimeError`. -/
def encode_labels (labels : List String) (problem : String := "multi-class")
    (sep : String := "|") : Except PyError EncodeResult :=
  let problem := normalizeProblem problem
  if MULTI_CLASS.contains problem then
    let classes := mlsorted (mlsorted (pySet labels))
    let encoder := mkEncoder classes 0
    let decoder := encoder.map (fun p => (p.2, p.1))
    match pyMapLookup encoder labels with
    | some coded => Except.ok ⟨Coded.mc coded, encoder, decoder⟩
    | none => Except.error PyError.keyError
  else if MULTI_LABEL.contains problem then
    let classes := mlsorted (pySet (labels.flatMap
      (fun item => (pySplit sep.data item.data).map String.mk)))
    let encoder := mkEncoder classes 0
    let decoder := encoder.map (fun p => (p.2, p.1))
    match mlCodeRows encoder classes.length sep labels with
    | some rows => Except.ok ⟨Coded.ml rows, encoder, decoder⟩
    | none => Except.error PyError.keyError
  else
    Except.error PyError.runtimeError

/-! ## `common.table_files` -/

/-- The auto-generated label-column names of `common.table_files`
(lines 249-255): with no user `hrchy`, `[f"_lv{i+1}" for i in range(ncols)]`;
otherwise `hrchy + [f"_lv{i+1}" for i in range(len(hrchy), ncols)]`. -/
def tableFilesColumns (hrchy : Option (List String)) (nCols : Nat) : List String :=
  match hrchy with
  | none => (List.range nCols).map (fun i => "_lv" ++ toString (i + 1))
  | some h =>
    h ++ (List.range' h.length (nCols - h.length)).map
      (fun i => "_lv" ++ toString (i + 1))

/-- The label-column names set by the `Directory.hrchy` setter
(`directory.py`, lines 155-168): same shape, but without the underscore
(`f"lv{_ + 1}"`). -/
def hrchyColumns (hrchy : Option (List String)) (nCols : Nat) : List String :=
  match hrchy with
  | none => (List.range nCols).map (fun i => "lv" ++ toString (i + 1))
  | some h =>
    h ++ (List.range' h.length (nCols - h.length)).map
      (fun i => "lv" ++ toString (i + 1))

/-- The table built by `common.table_files`: the named label columns and one
row per file, holding the row's label values (padded with `none` to the
common depth, as `str.split(expand=True)` pads with `None`), the filename
and the filepath.  Metadata columns are not modelled (no claim concerns
them). -/
structure FilesTable where
  labelColumns : List String
  rows : List (List (Option String) × String × String)
deriving DecidableEq, Repr

/-- The `__label` column of one path: `x.rsplit("/", 1)[0]`, split on `/`,
padded with `None` to `maxLen` columns, with the first column dropped
(`iloc[:, 1:]`). -/
def tableFilesLabelRow (maxLen : Nat) (x : String) : List (Option String) :=
  let segs := pySplit ['/'] (rsplitDirPart x.data)
  ((segs.map (fun c => some (String.mk c))) ++
    List.replicate (maxLen - segs.length) none).drop 1

/-- `common.table_files` (lines 160-262): the snapshot's paths are narrowed
to files, filtered by extensions (via `_linl` then `_filter_files`) and by
subdirs (via `_filter_files`), sorted with `mlsorted`, and decomposed into
label columns; with no label depth observed the table has zero label
columns. -/
def table_files (snapshotPaths : List PyFile) (hrchy : Option StrOrList)
    (subdirs : Option StrOrList) (extensions : Option StrOrList) : FilesTable :=
  let hrchyL := _linl hrchy "/" (some " ")
  let files := snapshotPaths.filter (fun f => f.isfile)
  let files := match _linl extensions "," (some " ") with
    | none => files
    | some es => _filter_files files (some (Sum.inr es)) none
  let files := match subdirs with
    | none => files
    | some sd => _filter_files files none (some sd)
  let paths := mlsorted (files.map (fun f => f.path))
  let maxLen := paths.foldr
    (fun x m => max (pySplit ['/'] (rsplitDirPart x.data)).length m) 0
  let nCols := maxLen - 1
  { labelColumns := if nCols = 0 then [] else tableFilesColumns hrchyL nCols
    rows := paths.map (fun x =>
      (tableFilesLabelRow maxLen x, String.mk (rsplitNamePart x.data), x)) }

/-! ## `Directory` (`directory.py`)

The filesystem is modelled as a tree of named nodes; the `root` argument of
`Directory` is the node the root path resolves to (`none` when the path
does not exist).  `os.scandir` on a missing path raises
`FileNotFoundError`, on a file `NotADirectoryError`, and on a directory
yields its children. -/

/-- A filesystem node: a file or a directory with children (listed in the
order `os.scandir` yields them). -/
inductive FSNode where
  | file (name : String)
  | dir (name : String) (children : List FSNode)

/-- One record appended by `Directory._scandir` (lines 175-190).  `reldir`
models `os.path.dirname(entry).replace(self.root, '', 1).strip('/')`;
`filepath` is modelled relative to the root (the absolute prefix is shared
by every record and never inspected by the modelled operations).  The
`size`/`atime`/`mtime`/`ctime` stat fields are not modelled (no claim
concerns them). -/
structure DirRecord where
  reldir : String
  filename : Option String
  filepath : String
  extension : String
  is_file : Bool
deriving DecidableEq, Repr

/-- Join a root-relative directory path and an entry name. -/
def joinPath (a b : String) : String :=
  if a = "" then b else a ++ "/" ++ b

/-- `os.scandir` on the resolved root. -/
def pyScandir : Option FSNode → Except PyError (List FSNode)
  | none => Except.error PyError.fileNotFoundError
  | some (FSNode.file _) => Except.error PyError.notADirectoryError
  | some (FSNode.dir _ cs) => Except.ok cs

/-- The records `Directory._scandir` appends below a directory whose
root-relative path is `rel`: for each entry one record, followed (for
directories) by the records of its subtree, in scan order. -/
def scanEntries (rel : String) : List FSNode → List DirRecord
  | [] => []
  | FSNode.file n :: rest =>
    { reldir := rel, filename := some n, filepath := joinPath rel n,
      extension := _get_ext (joinPath rel n), is_file := true }
      :: scanEntries rel rest
  | FSNode.dir n cs :: rest =>
    { reldir := rel, filename := none, filepath := joinPath rel n,
      extension := _get_ext (joinPath rel n), is_file := false }
      :: (scanEntries (joinPath rel n) cs ++ scanEntries rel rest)

/-- `Directory._scandir(self.root)` (lines 170-193): the root must resolve
to a directory; scanning then produces the full record list. -/
def directoryScan (root : Option FSNode) : Except PyError (List DirRecord) :=
  match pyScandir root with
  | Except.error e => Except.error e
  | Except.ok entries => Except.ok (scanEntries "" entries)

/-- The table construction of `Directory.__init__` (lines 70-74):
`pd.DataFrame(records).sort_values('reldir', key=...)`.  A `DataFrame` built
from an empty record list has no columns at all, so `sort_values('reldir')`
raises `KeyError`; otherwise the rows are stably sorted by the semantic
ordering of `reldir`.  Modelled from the spec: the sort key
`_gen_ordering_func(self.order)` is imported from `misc` but missing from
the source tree; spec section 4.1 says table sorting uses the same semantic
ordering, so the `mlsorted` key with the default table stands in for it
(no claim depends on the sort order). -/
def buildTable (records : List DirRecord) : Except PyError (List DirRecord) :=
  if records.isEmpty then Except.error PyError.keyError
  else Except.ok (List.insertionSort
    (fun a b => mlKeyLe (buildOrderMap defaultOrder) a.reldir b.reldir) records)

/-- `Directory.__init__` up to `self._table`: scan, then build the sorted
table. -/
def directoryInit (root : Option FSNode) : Except PyError (List DirRecord) :=
  match directoryScan root with
  | Except.error e => Except.error e
  | Except.ok records => buildTable records

/-- A `Directory` instance as far as filtering is concerned: its `_table`
rows and the four stored filter criteria (each already normalised by
`_linl` in the setters). -/
structure DirectoryModel where
  records : List DirRecord
  exts : Option (List String)
  exts_ignore : Option (List String)
  subdirs : Option (List String)
  subdirs_ignore : Option (List String)

/-- The boolean mask of `Directory._filter` (lines 195-208) for one row:
the conjunction of the `is_file` constraint, `isin(exts)`,
`~isin(exts_ignore)`, `isin(subdirs)` and `~isin(subdirs_ignore)`. -/
def dirFilterPred (d : DirectoryModel) (isFile : Option Bool) (r : DirRecord) : Bool :=
  (match isFile with | none => true | some b => r.is_file == b)
  && (match d.exts with | none => true | some es => es.contains r.extension)
  && (match d.exts_ignore with | none => true | some es => !(es.contains r.extension))
  && (match d.subdirs with | none => true | some ss => ss.contains r.reldir)
  && (match d.subdirs_ignore with | none => true | some ss => !(ss.contains r.reldir))

/-- The rows of the public `Directory.table` property (lines 84-117): the
`_table` rows selected by `_filter(is_file=True)`.  The label-column
concatenation, categorical conversion, `relpath` rewriting of `filepath`,
metadata-column dropping and index reset performed afterwards change
columns of the selected rows but never the selection itself nor the record
fields modelled here. -/
def tableRows (d : DirectoryModel) : List DirRecord :=
  d.records.filter (dirFilterPred d (some true))

/-- The spec's `NotFoundError` class: it covers exactly "root path does not
exist or is not a directory", i.e. the `FileNotFoundError` and
`NotADirectoryError` raised by `os.scandir`. -/
def notFoundClass : PyError → Bool
  | PyError.fileNotFoundError => true
  | PyError.notADirectoryError => true
  | _ => false

/-! ## Helper lemmas -/

theorem mkEncoder_length (cs : List String) (i : Nat) :
    (mkEncoder cs i).length = cs.length := by
  induction cs generalizing i with
  | nil => rfl
  | cons c cs ih => simp [mkEncoder, ih]

theorem mkEncoder_decoder_key_ge (cs : List String) (i j : Nat) (c : String)
    (h : List.lookup j ((mkEncoder cs i).map (fun p => (p.2, p.1))) = some c) :
    i ≤ j := by
  induction cs generalizing i with
  | nil => simp [mkEncoder, List.lookup] at h
  | cons a cs ih =>
    cases hji : (j == i) with
    | true =>
      have : j = i := by simpa using hji
      omega
    | false =>
      simp only [mkEncoder, List.map, List.lookup, hji] at h
      have := ih (i + 1) h
      omega

theorem mkEncoder_roundtrip (cs : List String) (c : String)
    (hnd : cs.Nodup) (hm : c ∈ cs) (i : Nat) :
    ∃ j, List.lookup c (mkEncoder cs i) = some j ∧
      List.lookup j ((mkEncoder cs i).map (fun p => (p.2, p.1))) = some c := by
  induction cs generalizing i with
  | nil => cases hm
  | cons a cs ih =>
    rcases List.mem_cons.mp hm with rfl | hmem
    · exact ⟨i, by simp [mkEncoder, List.lookup], by simp [mkEncoder, List.lookup]⟩
    · have hnd' := List.nodup_cons.mp hnd
      have hne : c ≠ a := fun h => hnd'.1 (h ▸ hmem)
      obtain ⟨j, h1, h2⟩ := ih hnd'.2 hmem (i + 1)
      have hji : i + 1 ≤ j := mkEncoder_decoder_key_ge _ _ _ _ h2
      refine ⟨j, ?_, ?_⟩
      · have hca : (c == a) = false := by simpa using hne
        simp only [mkEncoder, List.lookup, hca]
        exact h1
      · have hj : (j == i) = false := by simp; omega
        simp only [mkEncoder, List.map, List.lookup, hj]
        exact h2

theorem pyMapLookup_ok (enc : List (String × Nat)) (xs : List String)
    (h : ∀ x ∈ xs, ∃ c, List.lookup x enc = some c) :
    ∃ out, pyMapLookup enc xs = some out ∧ out.length = xs.length ∧
      ∀ i, (hi : i < xs.length) → (ho : i < out.length) →
        List.lookup (xs.get ⟨i, hi⟩) enc = some (out.get ⟨i, ho⟩) := by
  induction xs with
  | nil => exact ⟨[], rfl, rfl, fun i hi => absurd hi (by simp)⟩
  | cons x xs ih =>
    obtain ⟨c, hc⟩ := h x (List.mem_cons_self _ _)
    obtain ⟨out, hout, hlen, hidx⟩ := ih (fun y hy => h y (List.mem_cons_of_mem _ hy))
    refine ⟨c :: out, ?_, by simp [hlen], ?_⟩
    · simp [pyMapLookup, hc, hout]
    · intro i hi ho
      cases i with
      | zero => simpa using hc
      | succ n => simpa using hidx n (by simpa using hi) (by simpa using ho)

theorem classes_perm (labels : List String) :
    List.Perm (mlsorted (mlsorted (pySet labels))) (pySet labels) :=
  (mlsorted_perm _ _).trans (mlsorted_perm _ _)

theorem classes_nodup (labels : List String) :
    (mlsorted (mlsorted (pySet labels))).Nodup :=
  ((classes_perm labels).nodup_iff).mpr (List.nodup_dedup _)

theorem mem_classes_of_mem (labels : List String) (l : String) (h : l ∈ labels) :
    l ∈ mlsorted (mlsorted (pySet labels)) :=
  ((classes_perm labels).mem_iff).mpr (List.mem_dedup.mpr h)

theorem encode_labels_mc_shape (labels : List String) :
    ∃ out, pyMapLookup (mkEncoder (mlsorted (mlsorted (pySet labels))) 0) labels
        = some out ∧
      encode_labels labels "multi-class" "|" = Except.ok
        ⟨Coded.mc out, mkEncoder (mlsorted (mlsorted (pySet labels))) 0,
          (mkEncoder (mlsorted (mlsorted (pySet labels))) 0).map
            (fun p => (p.2, p.1))⟩ ∧
      out.length = labels.length ∧
      ∀ i, (hi : i < labels.length) → (ho : i < out.length) →
        List.lookup (labels.get ⟨i, hi⟩)
            (mkEncoder (mlsorted (mlsorted (pySet labels))) 0)
          = some (out.get ⟨i, ho⟩) := by
  have hmem : ∀ x ∈ labels, ∃ c,
      List.lookup x (mkEncoder (mlsorted (mlsorted (pySet labels))) 0) = some c :=
    fun x hx => by
      obtain ⟨j, h1, _⟩ := mkEncoder_roundtrip _ x (classes_nodup labels)
        (mem_classes_of_mem labels x hx) 0
      exact ⟨j, h1⟩
  obtain ⟨out, hout, hlen, hidx⟩ := pyMapLookup_ok _ labels hmem
  refine ⟨out, hout, ?_, hlen, hidx⟩
  simp only [encode_labels]
  rw [if_pos (by decide : MULTI_CLASS.contains (normalizeProblem "multi-class") = true)]
  rw [hout]

/-! ## Claim theorems -/

/-- C3: with the default group table, `mlsorted` sorts
`["NG2","OK","NG1","NG3"]` to `["OK","NG1","NG2","NG3"]`, and sorts
`["NG10","NG2"]` to `["NG2","NG10"]` — ties inside the `ng` group are
broken by the numeric-aware natural sort, not lexicographically. -/
theorem C3_semantic_sort :
    mlsorted ["NG2", "OK", "NG1", "NG3"] = ["OK", "NG1", "NG2", "NG3"]
    ∧ mlsorted ["NG10", "NG2"] = ["NG2", "NG10"] := by
  constructor <;> decide

/-- C1, counterexample: for `L = ["", "OK"]` the multi-class encoder has 2
entries, while the number of distinct labels of `L` excluding `None` and
the empty string is 1 — the claimed count equation fails because
`encode_labels` does not exclude empty labels from the vocabulary. -/
theorem C1_counterexample :
    (encode_labels ["", "OK"] "multi-class" "|").map (fun r => r.encoder.length)
      ≠ Except.ok (((pySet ["", "OK"]).filter (fun l => l != "")).length) := by
  decide

/-- C1 (amended): in multi-class mode `encode_labels` always succeeds, the
decoder is the exact structural inverse of the encoder on every label of
the input (`decoder[encoder[label]] == label`), and the number of encoder
entries equals the number of distinct labels of the input — with no
exclusion of empty labels (and a `None` element would already crash the
class collection, since `mlsorted` lower-cases every element). -/
theorem C1_roundtrip (labels : List String) :
    ∃ r, encode_labels labels "multi-class" "|" = Except.ok r ∧
      (∃ codes, r.coded = Coded.mc codes) ∧
      (∀ l ∈ labels, ∃ c, List.lookup l r.encoder = some c ∧
        List.lookup c r.decoder = some l) ∧
      r.encoder.length = (pySet labels).length := by
  obtain ⟨out, _, hok, _, _⟩ := encode_labels_mc_shape labels
  refine ⟨_, hok, ⟨out, rfl⟩, ?_, ?_⟩
  · intro l hl
    exact mkEncoder_roundtrip _ l (classes_nodup labels)
      (mem_classes_of_mem labels l hl) 0
  · rw [mkEncoder_length]
    exact (classes_perm labels).length_eq

/-- C2, counterexample: for input `["", "OK"]` in multi-class mode the empty
string is a key of the encoder (with code 0) and the coded labels are
`[0, 1]` — the empty string is neither excluded from the vocabulary nor
passed through unchanged. -/
theorem C2_counterexample :
    (encode_labels ["", "OK"] "multi-class" "|").map
        (fun r => (List.lookup "" r.encoder, r.coded))
      = Except.ok (some 0, Coded.mc [0, 1]) := by
  decide

/-- C2 (amended): in multi-class mode every element of the input — the empty
string included — is a key of the encoder, and every position of the coded
labels holds the integer code of the label at that position; nothing is
passed through unchanged.  (A `None` element is not excluded either: it
would crash `mlsorted`, which calls `.lower()` on every element.) -/
theorem C2_no_passthrough (labels : List String) :
    ∃ r codes, encode_labels labels "multi-class" "|" = Except.ok r ∧
      r.coded = Coded.mc codes ∧ codes.length = labels.length ∧
      (∀ l ∈ labels, ∃ c, List.lookup l r.encoder = some c) ∧
      ∀ i, (hi : i < labels.length) → (ho : i < codes.length) →
        List.lookup (labels.get ⟨i, hi⟩) r.encoder = some (codes.get ⟨i, ho⟩) := by
  obtain ⟨out, _, hok, hlen, hidx⟩ := encode_labels_mc_shape labels
  refine ⟨_, out, hok, rfl, hlen, ?_, hidx⟩
  intro l hl
  obtain ⟨j, h1, _⟩ := mkEncoder_roundtrip _ l (classes_nodup labels)
    (mem_classes_of_mem labels l hl) 0
  exact ⟨j, h1⟩

/-- C4, counterexample: the unrecognized mode string `"one-class"` makes
`encode_labels` fail with `RuntimeError` (the dispatch's `else` branch is a
bare `raise` with no active exception), which is not a `ValueError`-class
error. -/
theorem C4_counterexample :
    encode_labels ["OK"] "one-class" "|" = Except.error PyError.runtimeError
    ∧ PyError.runtimeError ≠ PyError.valueError := by
  decide

/-- C4 (amended): for every mode string whose normalisation is neither a
recognized multi-class nor multi-label spelling, `encode_labels` fails
immediately — but with a `RuntimeError` (bare `raise`), not a
`ValueError`-class error. -/
theorem C4_unrecognized_mode (labels : List String) (problem sep : String)
    (h1 : MULTI_CLASS.contains (normalizeProblem problem) = false)
    (h2 : MULTI_LABEL.contains (normalizeProblem problem) = false) :
    encode_labels labels problem sep = Except.error PyError.runtimeError := by
  have h1' : ¬ normalizeProblem problem ∈ MULTI_CLASS := by simpa using h1
  have h2' : ¬ normalizeProblem problem ∈ MULTI_LABEL := by simpa using h2
  simp [encode_labels, h1', h2']

/-- C4, witness: the amended theorem applied at a concrete unrecognized
mode string. -/
theorem C4_unrecognized_mode_witness :
    encode_labels ["OK"] "one-class" "|" = Except.error PyError.runtimeError :=
  C4_unrecognized_mode ["OK"] "one-class" "|" (by decide) (by decide)

/-- Shape of both column-name lists: user names first, then the generated
names for the remaining level indices. -/
theorem paddedColumns_spec (f : Nat → String) (h : List String) (n i : Nat)
    (hle : h.length ≤ n) (hi1 : h.length ≤ i) (hi2 : i < n) :
    (h ++ (List.range' h.length (n - h.length)).map f).length = n
    ∧ (h ++ (List.range' h.length (n - h.length)).map f).take h.length = h
    ∧ (h ++ (List.range' h.length (n - h.length)).map f).getD i "" = f i := by
  refine ⟨?_, List.take_left h _, ?_⟩
  · simp only [List.length_append, List.length_map, List.length_range']
    omega
  · rw [List.getD_eq_getElem?_getD, List.getElem?_append_right hi1,
      List.getElem?_map, List.getElem?_range' _ _ (by omega)]
    simp only [Option.map_some', Option.getD_some]
    congr 1
    omega

/-- C5, counterexample: `table_files` with no user-supplied hierarchy names
and one label level names the column `"_lv1"`, not `"lv1"` — its
auto-generated names carry a leading underscore. -/
theorem C5_counterexample :
    tableFilesColumns none 1 = ["_lv1"] ∧ ("_lv1" : String) ≠ "lv1" := by
  decide

/-- C5 (amended): with user-supplied hierarchy names `h` shorter than the
level count `n`, both table builders name the columns `h` followed by
auto-generated per-level names — `lv{i+1}` in `Directory.hrchy`, but
`_lv{i+1}` (with a leading underscore) in `table_files`; with no
user-supplied names every column gets the auto-generated name. -/
theorem C5_column_names (h : List String) (n i : Nat)
    (hle : h.length ≤ n) (hi1 : h.length ≤ i) (hi2 : i < n) :
    ((hrchyColumns (some h) n).length = n
      ∧ (hrchyColumns (some h) n).take h.length = h
      ∧ (hrchyColumns (some h) n).getD i "" = "lv" ++ toString (i + 1)
      ∧ (hrchyColumns none n).getD i "" = "lv" ++ toString (i + 1))
    ∧ ((tableFilesColumns (some h) n).length = n
      ∧ (tableFilesColumns (some h) n).take h.length = h
      ∧ (tableFilesColumns (some h) n).getD i "" = "_lv" ++ toString (i + 1)
      ∧ (tableFilesColumns none n).getD i "" = "_lv" ++ toString (i + 1)) := by
  have hno : ∀ (pre : String),
      ((List.range n).map (fun j => pre ++ toString (j + 1))).getD i ""
        = pre ++ toString (i + 1) := by
    intro pre
    rw [List.getD_eq_getElem?_getD, List.getElem?_map, List.getElem?_range hi2]
    simp
  obtain ⟨l1, l2, l3⟩ :=
    paddedColumns_spec (fun j => "lv" ++ toString (j + 1)) h n i hle hi1 hi2
  obtain ⟨m1, m2, m3⟩ :=
    paddedColumns_spec (fun j => "_lv" ++ toString (j + 1)) h n i hle hi1 hi2
  exact ⟨⟨l1, l2, l3, hno "lv"⟩, ⟨m1, m2, m3, hno "_lv"⟩⟩

/-- C5, witness: the amended theorem applied at `h = ["split"]`, `n = 2`,
`i = 1`. -/
theorem C5_column_names_witness :
    (hrchyColumns (some ["split"]) 2).getD 1 "" = "lv" ++ toString (1 + 1) :=
  (C5_column_names ["split"] 2 1 (by decide) (by decide) (by decide)).1.2.2.1

/-- C6, counterexample: on a file `a.jpg`, the extension filter token
`"JPG"` selects nothing while `"jpg"` selects the file — extension matching
is not case-insensitive in the filter tokens (the file's suffix is
lower-cased, the tokens are compared verbatim). -/
theorem C6_counterexample :
    _filter_files [⟨"a.jpg", true⟩] (some (Sum.inr ["JPG"])) none = []
    ∧ _filter_files [⟨"a.jpg", true⟩] (some (Sum.inr ["jpg"])) none
      = [⟨"a.jpg", true⟩] := by
  decide

/-- Prepending a dot to a token does not change its dot-stripping. -/
theorem pyStrip_dot_cons (t : String) :
    pyStrip ['.'] (("." ++ t).data) = pyStrip ['.'] t.data := rfl

/-- C6 (amended): extension filtering strips leading (and trailing) dots
from the filter tokens and compares them verbatim against the lower-cased
suffix of the filename after its last dot, keeping files only: `".jpg"`
and `"jpg"` select exactly the files whose lower-cased extension is `jpg`
(in any letter case on disk), while an upper-case token such as `"JPG"`
matches no stored extension (counterexample above). -/
theorem C6_extension_matching (files : List PyFile) (ts : List String) :
    _filter_files files (some (Sum.inr (ts.map (fun t => "." ++ t)))) none
      = _filter_files files (some (Sum.inr ts)) none
    ∧ _filter_files files (some (Sum.inr ["jpg"])) none
      = files.filter (fun f => f.isfile && (extKeyOf f == "jpg")) := by
  constructor
  · simp only [_filter_files, wrapList]
    rw [if_neg (by simp), if_neg (by simp)]
    simp only [List.map_map]
    congr 2
  · simp only [_filter_files, wrapList]
    rw [if_neg (by simp)]
    have hstrip : String.mk (pyStrip ['.'] "jpg".data) = "jpg" := by decide
    simp only [List.map, hstrip]
    apply List.filter_congr
    intro f _
    cases hk : (extKeyOf f == "jpg") <;>
      simp [List.contains, List.elem, hk]

/-- Filtering twice by the same predicate is filtering once. -/
theorem filter_self_idem {α : Type} (p : α → Bool) (l : List α) :
    (l.filter p).filter p = l.filter p := by
  induction l with
  | nil => rfl
  | cons a l ih => by_cases h : p a <;> simp [List.filter_cons, h, ih]

/-- Two filters commute. -/
theorem filter_swap {α : Type} (p q : α → Bool) (l : List α) :
    (l.filter p).filter q = (l.filter q).filter p := by
  induction l with
  | nil => rfl
  | cons a l ih => by_cases hp : p a <;> by_cases hq : q a <;>
      simp [List.filter_cons, hp, hq, ih]

/-- Re-filtering by an already-applied predicate changes nothing. -/
theorem filter_absorb {α : Type} (p q : α → Bool) (l : List α) :
    ((l.filter p).filter q).filter p = (l.filter p).filter q := by
  rw [filter_swap q p (l.filter p), filter_self_idem]

/-- C7: on an existing empty directory, `Directory.__init__` does not return
an empty table — `pd.DataFrame([])` from the empty record list has no
columns, so `.sort_values('reldir')` raises `KeyError` — while
`table_files` does return an empty table with zero label columns (the
snapshot of an empty directory holds only the root directory itself). -/
theorem C7_empty_directory :
    directoryInit (some (FSNode.dir "data" [])) = Except.error PyError.keyError
    ∧ (table_files [⟨".", false⟩] none none none).labelColumns = []
    ∧ (table_files [⟨".", false⟩] none none none).rows = [] := by
  refine ⟨?_, by decide, by decide⟩
  simp [directoryInit, directoryScan, pyScandir, scanEntries, buildTable]

/-- C8: scanning a root that does not exist, or that is not a directory,
fails immediately with the error `os.scandir` raises there —
`FileNotFoundError` or `NotADirectoryError`, the two errors the spec's
`NotFoundError` stands for — and no records are produced. -/
theorem C8_scan_not_found (root : Option FSNode)
    (h : root = none ∨ ∃ n, root = some (FSNode.file n)) :
    ∃ e, directoryScan root = Except.error e ∧ notFoundClass e = true := by
  rcases h with rfl | ⟨n, rfl⟩
  · exact ⟨PyError.fileNotFoundError, rfl, rfl⟩
  · exact ⟨PyError.notADirectoryError, rfl, rfl⟩

/-- C8, witness: the theorem applied at a non-existent root. -/
theorem C8_scan_not_found_witness :
    ∃ e, directoryScan none = Except.error e ∧ notFoundClass e = true :=
  C8_scan_not_found none (Or.inl rfl)

/-- C9: `_filter_files` is idempotent — applying the same extension and
subdirectory criteria to its own output returns that output unchanged. -/
theorem C9_filter_idempotent (files : List PyFile)
    (extensions subdirs : Option StrOrList) :
    _filter_files (_filter_files files extensions subdirs) extensions subdirs
      = _filter_files files extensions subdirs := by
  rcases extensions with _ | e <;> rcases subdirs with _ | s
  · rfl
  · simp only [_filter_files]
    rw [if_neg (by simp), if_neg (by simp)]
    exact filter_self_idem _ _
  · simp only [_filter_files]
    rw [if_neg (by simp), if_neg (by simp)]
    exact filter_self_idem _ _
  · simp only [_filter_files]
    rw [if_neg (by simp), if_neg (by simp)]
    rw [filter_absorb, filter_absorb]

/-- C10: every row of the public `Directory.table` has `is_file = true` —
whatever the records and whatever extension/subdirectory criteria are set,
directory records never appear in the table. -/
theorem C10_table_rows_are_files (d : DirectoryModel) (r : DirRecord)
    (h : r ∈ tableRows d) : r.is_file = true := by
  have hp := List.of_mem_filter h
  simp only [dirFilterPred, Bool.and_eq_true, beq_iff_eq] at hp
  exact hp.1.1.1.1

/-- C10, witness: the theorem applied to a one-record instance with no
filter criteria. -/
theorem C10_table_rows_are_files_witness :
    ({ reldir := "", filename := some "a.jpg", filepath := "a.jpg",
       extension := "jpg", is_file := true } : DirRecord).is_file = true :=
  C10_table_rows_are_files
    ⟨[⟨"", some "a.jpg", "a.jpg", "jpg", true⟩], none, none, none, none⟩
    ⟨"", some "a.jpg", "a.jpg", "jpg", true⟩ (by decide)

end Ujutils
